import Mathlib

/-!
Shallow embedding of the pong-style game core in `src/main.rs` (agb GBA game):
fixed-point geometry (`Circle`, `Rect`, `touches`), `Ball::update`,
`Paddle::move_by` / `Paddle::_update`, `Game::new` and the per-tick state
machine of `main`.

`FixedNum<8>` (agb_fixnum `Num<i32, 8>`) is modelled by its raw value as an
unbounded `Int` (value = raw / 256): addition and subtraction act on raws,
multiplication of two fixed-point numbers is the widening product arithmetically
shifted right by 8 (floor division by 256), division of a fixed-point number by
a plain integer divides the raw value with Rust `/` semantics (truncation
toward zero), and `sqrt` (for 8 fractional bits) is the floor integer square
root of the raw value shifted left by 4.  The game's coordinates stay far from
i32 range, so wrapping of the raw i32 is not modelled.

Paddle `health` is a Rust `u16`; `health -= 1` is modelled with wrapping
(release-mode) semantics.  Sound playback (`play_sound`) and all rendering are
side effects on external hardware and are omitted.
-/

set_option autoImplicit false

namespace Pong

/-- `FixedNum<8>` multiplication: widening product, arithmetic shift right by 8. -/
def fpMul (a b : Int) : Int := Int.fdiv (a * b) 256

/-- agb `Num<I, N> / I` (`Div<I> for Num`): raw value divided by the integer
with Rust `/` semantics (truncation toward zero). -/
def fpDivInt (a : Int) (b : Int) : Int := Int.tdiv a b

/-- `FixedNum<8>` division by another fixed-point number: widening, shift left
by 8, truncating divide (Rust semantics). -/
def fpDivFp (a b : Int) : Int := Int.tdiv (a * 256) b

/-- The initial `while d > self.0 { d >>= 2 }` of agb `Num<i32, 8>::sqrt`.
All values stay non-negative, so the shift is division by 4; 16 fuel steps
take `1 << 30` down to 0 and thus cover every i32 raw value. -/
def sqrtShrink : Nat → Int → Int → Int
  | 0, _, d => d
  | fuel + 1, n, d => if d > n then sqrtShrink fuel n (Int.fdiv d 4) else d

/-- The binary restoring square-root loop of agb `Num<i32, 8>::sqrt`:
`while d != 0 { if x >= c + d { x -= c + d; c = (c >> 1) + d } else { c >>= 1 };
d >>= 2 }`, returning `c`. -/
def sqrtLoop : Nat → Int → Int → Int → Int
  | 0, _, c, _ => c
  | fuel + 1, x, c, d =>
      if d = 0 then c
      else if x ≥ c + d then sqrtLoop fuel (x - (c + d)) (Int.fdiv c 2 + d) (Int.fdiv d 4)
      else sqrtLoop fuel x (Int.fdiv c 2) (Int.fdiv d 4)

/-- agb `Num<i32, 8>::sqrt`: the restoring loop computes the floor integer
square root of the raw value, and the result is shifted left by `8 / 2 = 4`
(`c << (N / 2)`). -/
def fpSqrt (a : Int) : Int := sqrtLoop 16 a 0 (sqrtShrink 16 a (2 ^ 30)) * 16

/-- `num!(n)` for an integer `n`: raw value `n * 256`. -/
def fpOfInt (n : Int) : Int := n * 256

/-- `i32::abs` (on raw values; agb `Num::abs` is `Self(self.0.abs())`). -/
def fpAbs (a : Int) : Int := if a < 0 then -a else a

/-- Rust `Ord::max` on raw values. -/
def fpMax (a b : Int) : Int := if a ≤ b then b else a

/-- Rust `Ord::min` on raw values. -/
def fpMin (a b : Int) : Int := if a ≤ b then a else b

/-- `Vector2D<FixedNum<8>>`. -/
structure V2 where
  x : Int
  y : Int
deriving DecidableEq, Repr

/-- `Rect<FixedNum<8>>`: position (top-left) and size. -/
structure FpRect where
  pos : V2
  size : V2
deriving DecidableEq, Repr

/-- `Circle<FixedNum<8>>`: top-left of bounding box and radius. -/
structure FpCircle where
  pos : V2
  radius : Int
deriving DecidableEq, Repr

/-- `Circle::centre`: `pos + vec2(radius, radius)`. -/
def FpCircle.centre (c : FpCircle) : V2 :=
  ⟨c.pos.x + c.radius, c.pos.y + c.radius⟩

/-- agb `Rect::top_left`. -/
def FpRect.topLeft (r : FpRect) : V2 := r.pos

/-- agb `Rect::bottom_right`: `position + size`. -/
def FpRect.bottomRight (r : FpRect) : V2 :=
  ⟨r.pos.x + r.size.x, r.pos.y + r.size.y⟩

/-- agb `Rect::bottom_left`: `position + (0, size.y)`. -/
def FpRect.bottomLeft (r : FpRect) : V2 :=
  ⟨r.pos.x, r.pos.y + r.size.y⟩

/-- agb `Rect::centre`: `position + size / 2` (fixed-point division by 2). -/
def FpRect.centre (r : FpRect) : V2 :=
  ⟨r.pos.x + fpDivFp r.size.x (fpOfInt 2), r.pos.y + fpDivFp r.size.y (fpOfInt 2)⟩

/-- `Touches<Rect<FixedNum<8>>> for Circle<FixedNum<8>>`: clamp the centre
componentwise to the rectangle via the two `match` expressions, then compare
the fixed-point distance to the radius. -/
def touches (c : FpCircle) (r : FpRect) : Bool :=
  let test_x : Int :=
    if c.centre.x < r.topLeft.x then r.topLeft.x
    else if c.centre.x > r.bottomRight.x then r.bottomRight.x
    else c.centre.x
  let test_y : Int :=
    if c.centre.y < r.topLeft.y then r.topLeft.y
    else if c.centre.y > r.bottomLeft.y then r.bottomLeft.y
    else c.centre.y
  let dist_x := c.centre.x - test_x
  let dist_y := test_y - c.centre.y
  let dist := fpSqrt (fpMul dist_x dist_x + fpMul dist_y dist_y)
  decide (dist ≤ c.radius)

/-- `Ball`: position and velocity. -/
structure BallS where
  pos : V2
  vel : V2
deriving DecidableEq, Repr

/-- `Paddle<_>`: position and `u16` health (the const-generic role tag only
selects input buttons and is supplied at the call sites of `tick`). -/
structure PaddleS where
  pos : V2
  health : Nat
deriving DecidableEq, Repr

/-- `agb::display::HEIGHT - 16`, the bottom wall test constant (`num!(144)`). -/
def wallBottom : Int := fpOfInt (160 - 16)

/-- `agb::display::WIDTH - 16`, the right-edge miss constant (`num!(224)`). -/
def missRight : Int := fpOfInt (240 - 16)

/-- `agb::display::HEIGHT - 48`, the paddle clamp upper bound (`num!(112)`). -/
def paddleMaxY : Int := fpOfInt (160 - 48)

/-- `u16` wrapping decrement (`health -= 1` in release mode). -/
def decHealth (h : Nat) : Nat := (h + 65535) % 65536

/-- `Paddle::collision_rect`: `Rect::new(pos + (4, 4), (10, 40))`. -/
def PaddleS.collisionRect (p : PaddleS) : FpRect :=
  ⟨⟨p.pos.x + fpOfInt 4, p.pos.y + fpOfInt 4⟩, ⟨fpOfInt 10, fpOfInt 40⟩⟩

/-- `Ball::reset`: position `(50, 50)`, velocity `(2, 0.5)` (raw `0.5 = 128`). -/
def BallS.reset : BallS := ⟨⟨fpOfInt 50, fpOfInt 50⟩, ⟨fpOfInt 2, 128⟩⟩

/-- `Ball::update(paddle_a, paddle_b, mixer)`: returns the new ball and both
paddles (only their health can change).  Mirrors the source statement by
statement; `play_sound` calls are omitted. -/
def ballUpdate (b : BallS) (pa pb : PaddleS) : BallS × PaddleS × PaddleS :=
  let potential : V2 := ⟨b.pos.x + b.vel.x, b.pos.y + b.vel.y⟩
  let mask : FpCircle := ⟨potential, fpOfInt 8⟩
  let v1 : V2 :=
    if touches mask pa.collisionRect then
      ⟨fpAbs b.vel.x, b.vel.y + fpDivInt (mask.centre.y - pa.collisionRect.centre.y) 32⟩
    else b.vel
  let v2 : V2 :=
    if touches mask pb.collisionRect then
      ⟨-fpAbs v1.x, v1.y - fpDivInt (mask.centre.y - pb.collisionRect.centre.y) 32⟩
    else v1
  let v3 : V2 :=
    if potential.y ≤ 0 ∨ potential.y ≥ wallBottom then ⟨v2.x, -v2.y⟩ else v2
  let st1 : BallS × PaddleS :=
    if potential.x ≤ 0 then (BallS.reset, { pa with health := decHealth pa.health })
    else (⟨b.pos, v3⟩, pa)
  let st2 : BallS × PaddleS :=
    if potential.x ≥ missRight then (BallS.reset, { pb with health := decHealth pb.health })
    else (st1.1, pb)
  (⟨⟨st2.1.pos.x + st2.1.vel.x, st2.1.pos.y + st2.1.vel.y⟩, st2.1.vel⟩, st1.2, st2.2)

/-- `Paddle::move_by`: add `d` to `pos.y`, then `.max(0).min(HEIGHT - 48)`. -/
def PaddleS.moveBy (p : PaddleS) (d : Int) : PaddleS :=
  { p with pos := ⟨p.pos.x, fpMin (fpMax (p.pos.y + d) 0) paddleMaxY⟩ }

/-- `Paddle::_update`: two buttons map to a vertical delta in `{-2, 0, 2}`. -/
def PaddleS.update (p : PaddleS) (up down : Bool) : PaddleS :=
  let d : Int :=
    match up, down with
    | true, false => -fpOfInt 2
    | false, true => fpOfInt 2
    | _, _ => 0
  p.moveBy d

/-- Per-tick button snapshot (`ButtonController` reads used by the game). -/
structure Input where
  up : Bool
  down : Bool
  a : Bool
  b : Bool
  start : Bool
deriving DecidableEq, Repr

/-- `GamePlay` (the background tile layer is render-only and omitted). -/
structure GamePlay where
  ball : BallS
  paddleA : PaddleS
  paddleB : PaddleS
deriving DecidableEq, Repr

/-- `Game`: `Playing(GamePlay)` or `Over` (the `Over` background is
render-only and carries no simulation state). -/
inductive Game where
  | Playing : GamePlay → Game
  | Over : Game
deriving DecidableEq, Repr

/-- `Game::new`: ball at `(50, 50)` with velocity `(2, 0.5)`, left paddle at
`(8, 8)`, right paddle at `(240 - 16 - 8, 8)`, both with health 3. -/
def Game.new : Game :=
  Game.Playing
    { ball := ⟨⟨fpOfInt 50, fpOfInt 50⟩, ⟨fpOfInt 2, 128⟩⟩
      paddleA := ⟨⟨fpOfInt 8, fpOfInt 8⟩, 3⟩
      paddleB := ⟨⟨fpOfInt (240 - 16 - 8), fpOfInt 8⟩, 3⟩ }

/-- One iteration of the `loop` in `main`: in `Playing`, the ball updates
first (against the paddle rectangles as they were at the start of the tick),
then both paddles move, then the health check decides `Playing`/`Over`; in
`Over`, START builds a fresh `Game::new`. -/
def tick (g : Game) (i : Input) : Game :=
  match g with
  | .Playing gp =>
      let r := ballUpdate gp.ball gp.paddleA gp.paddleB
      let pa := r.2.1.update i.up i.down
      let pb := r.2.2.update i.a i.b
      if pa.health = 0 ∨ pb.health = 0 then .Over
      else .Playing ⟨r.1, pa, pb⟩
  | .Over => if i.start then Game.new else .Over

/-- The ball-update phase of a `Playing` tick, as a `GamePlay` transformer. -/
def ballPhase (gp : GamePlay) : GamePlay :=
  let r := ballUpdate gp.ball gp.paddleA gp.paddleB
  ⟨r.1, r.2.1, r.2.2⟩

/-- The paddle-movement phase of a `Playing` tick (UP/DOWN drive the left
paddle, A/B the right paddle). -/
def paddlePhase (i : Input) (gp : GamePlay) : GamePlay :=
  ⟨gp.ball, gp.paddleA.update i.up i.down, gp.paddleB.update i.a i.b⟩

/-- The end-of-tick health check: `Over` iff either health is 0. -/
def healthGate (gp : GamePlay) : Game :=
  if gp.paddleA.health = 0 ∨ gp.paddleB.health = 0 then .Over else .Playing gp

/-- The `Playing` tick in the order the specification's data-flow sentence
describes it: paddles move first, then the ball updates. -/
def tickPaddlesFirst (g : Game) (i : Input) : Game :=
  match g with
  | .Playing gp => healthGate (ballPhase (paddlePhase i gp))
  | .Over => if i.start then Game.new else .Over

/-- Componentwise clamp of `v` into `[lo, hi]`, as the specification words it
("clamping each axis of the centre independently into the rectangle's
[min,max] range"). -/
def clampFp (lo hi v : Int) : Int := fpMax lo (fpMin hi v)

/-- Follows the spec's words for `Circle.touches`: the fixed-point Euclidean
distance from the circle's centre to the closest point of the rectangle,
the closest point being the centre clamped into the rectangle on each axis. -/
def closestPointDist (c : FpCircle) (r : FpRect) : Int :=
  let qx := clampFp r.pos.x (r.pos.x + r.size.x) c.centre.x
  let qy := clampFp r.pos.y (r.pos.y + r.size.y) c.centre.y
  let dx := c.centre.x - qx
  let dy := c.centre.y - qy
  fpSqrt (fpMul dx dx + fpMul dy dy)

/-- Health bounds that hold for every game state the loop can reach: a live
session never enters a tick with a paddle at health 0 (the state machine
replaced it by `Over` at the end of the previous tick), and health never
exceeds its starting value 3. -/
def healthInv : Game → Prop
  | .Playing gp => 1 ≤ gp.paddleA.health ∧ gp.paddleA.health ≤ 3 ∧
      1 ≤ gp.paddleB.health ∧ gp.paddleB.health ≤ 3
  | .Over => True

/-- For a non-degenerate interval, the two-sided comparison in `touches`
agrees with the componentwise clamp. -/
lemma match_clamp_eq (lo hi v : Int) (h : lo ≤ hi) :
    (if v < lo then lo else if v > hi then hi else v) = clampFp lo hi v := by
  unfold clampFp fpMax fpMin
  split_ifs <;> omega

/-- Squaring a fixed-point number is insensitive to its sign. -/
lemma fpMul_self_neg (a : Int) : fpMul (-a) (-a) = fpMul a a := by
  unfold fpMul
  congr 1
  ring

lemma fpAbs_pos (a : Int) (h : a ≠ 0) : 0 < fpAbs a := by
  unfold fpAbs
  split <;> omega

lemma fpAbs_fpAbs (a : Int) : fpAbs (fpAbs a) = fpAbs a := by
  unfold fpAbs
  split_ifs <;> omega

lemma PaddleS.update_health (p : PaddleS) (u d : Bool) :
    (p.update u d).health = p.health := rfl

/-- `Ball::update` never moves a paddle; it can only change health, and it does
so exactly when the corresponding miss condition fires. -/
lemma ballUpdate_paddles (b : BallS) (pa pb : PaddleS) :
    (ballUpdate b pa pb).2.1 =
      (if b.pos.x + b.vel.x ≤ 0 then { pa with health := decHealth pa.health } else pa) ∧
    (ballUpdate b pa pb).2.2 =
      (if b.pos.x + b.vel.x ≥ missRight then { pb with health := decHealth pb.health } else pb) := by
  constructor <;>
    · simp only [ballUpdate]
      split <;> rfl


/-- Claim C4 (confirmed): for every circle and rectangle with non-negative
size and positive radius, `touches` returns true iff the fixed-point Euclidean
distance from the circle's centre to the closest point of the rectangle
(the centre clamped componentwise into the rectangle) is at most the radius. -/
theorem touches_iff_closestPointDist_le (c : FpCircle) (r : FpRect)
    (hx : 0 ≤ r.size.x) (hy : 0 ≤ r.size.y) (_hr : 0 < c.radius) :
    touches c r = true ↔ closestPointDist c r ≤ c.radius := by
  have hgx : r.pos.x ≤ r.pos.x + r.size.x := by omega
  have hgy : r.pos.y ≤ r.pos.y + r.size.y := by omega
  simp only [touches, closestPointDist, FpRect.topLeft, FpRect.bottomRight,
    FpRect.bottomLeft, decide_eq_true_eq]
  rw [match_clamp_eq _ _ _ hgx, match_clamp_eq _ _ _ hgy]
  have hsq : fpMul (clampFp r.pos.y (r.pos.y + r.size.y) c.centre.y - c.centre.y)
      (clampFp r.pos.y (r.pos.y + r.size.y) c.centre.y - c.centre.y) =
      fpMul (c.centre.y - clampFp r.pos.y (r.pos.y + r.size.y) c.centre.y)
      (c.centre.y - clampFp r.pos.y (r.pos.y + r.size.y) c.centre.y) := by
    unfold fpMul
    congr 1
    ring
  rw [hsq]

/-- Witness for C4 at a concrete overlapping circle and paddle rectangle. -/
theorem touches_iff_closestPointDist_le_witness :
    closestPointDist ⟨⟨1952, 2952⟩, 2048⟩ (PaddleS.collisionRect ⟨⟨2048, 2048⟩, 3⟩) ≤ 2048 :=
  (touches_iff_closestPointDist_le ⟨⟨1952, 2952⟩, 2048⟩
    (PaddleS.collisionRect ⟨⟨2048, 2048⟩, 3⟩) (by decide) (by decide) (by decide)).mp (by decide)

/-- Claim C9 (confirmed): `move_by` always leaves the paddle with
`0 ≤ pos.y ≤ HEIGHT - 48`, for any starting position and any delta, and the
clamping is idempotent (`move_by(0)` on a clamped position is the identity). -/
theorem moveBy_clamped_and_idempotent (p : PaddleS) (d : Int) :
    0 ≤ (p.moveBy d).pos.y ∧ (p.moveBy d).pos.y ≤ paddleMaxY ∧
      (p.moveBy d).moveBy 0 = p.moveBy d := by
  simp only [PaddleS.moveBy, paddleMaxY, fpOfInt, fpMin, fpMax, PaddleS.mk.injEq,
    V2.mk.injEq, eq_self_iff_true, true_and, and_true]
  split_ifs <;> omega

/-- Claim C10 (confirmed): whenever the speculative next position crosses a
side boundary (a miss on either side), the ball leaves `Ball::update` with the
reset velocity `(2, 0.5)` and position `(52, 50.5)` — the reset position plus
the reset velocity, because `pos += velocity` runs unconditionally after the
reset. -/
theorem ball_miss_leaves_reset_plus_velocity (b : BallS) (pa pb : PaddleS)
    (h : b.pos.x + b.vel.x ≤ 0 ∨ b.pos.x + b.vel.x ≥ missRight) :
    (ballUpdate b pa pb).1 = ⟨⟨fpOfInt 52, 12928⟩, ⟨fpOfInt 2, 128⟩⟩ := by
  rcases h with h1 | h1
  · have h2 : ¬ (b.pos.x + b.vel.x ≥ missRight) := by
      unfold missRight fpOfInt
      omega
    simp only [ballUpdate, h1, h2, if_true, if_false, ite_true, ite_false]
    rfl
  · simp only [ballUpdate, h1, if_true, ite_true]
    rfl

/-- Witness for C10: a concrete left-edge miss. -/
theorem ball_miss_leaves_reset_plus_velocity_witness :
    (ballUpdate ⟨⟨256, 20480⟩, ⟨-512, 0⟩⟩ ⟨⟨2048, 2048⟩, 3⟩ ⟨⟨55296, 2048⟩, 3⟩).1 =
      ⟨⟨fpOfInt 52, 12928⟩, ⟨fpOfInt 2, 128⟩⟩ :=
  ball_miss_leaves_reset_plus_velocity ⟨⟨256, 20480⟩, ⟨-512, 0⟩⟩ ⟨⟨2048, 2048⟩, 3⟩
    ⟨⟨55296, 2048⟩, 3⟩ (Or.inl (by decide))

/-- Counterexample to claim C1 as stated: on a left-edge miss the ball's final
position is not the reset position `(50, 50)` (the unconditional
`pos += velocity` has already moved it). -/
theorem left_miss_position_cex :
    ((256 : Int) + -512 ≤ 0) ∧
      (ballUpdate ⟨⟨256, 20480⟩, ⟨-512, 0⟩⟩ ⟨⟨2048, 2048⟩, 3⟩ ⟨⟨55296, 2048⟩, 3⟩).1.pos ≠
        ⟨fpOfInt 50, fpOfInt 50⟩ := by decide

/-- Claim C1 (amended): when the speculative next position has `x ≤ 0`, the
left paddle's health is decremented once (a wrapping `u16` decrement), the
ball's velocity equals the reset velocity `(2, 0.5)`, and its position equals
the reset position plus the reset velocity, `(52, 50.5)`; the right paddle's
health is untouched — all regardless of any collision logic earlier in the
tick. -/
theorem left_miss_decrements_and_resets (b : BallS) (pa pb : PaddleS)
    (h : b.pos.x + b.vel.x ≤ 0) :
    (ballUpdate b pa pb).2.1.health = decHealth pa.health ∧
    (ballUpdate b pa pb).1.vel = ⟨fpOfInt 2, 128⟩ ∧
    (ballUpdate b pa pb).1.pos = ⟨fpOfInt 52, 12928⟩ ∧
    (ballUpdate b pa pb).2.2.health = pb.health := by
  have h2 : ¬ (b.pos.x + b.vel.x ≥ missRight) := by
    unfold missRight fpOfInt
    omega
  simp only [ballUpdate, h, h2, if_true, if_false, ite_true, ite_false]
  refine ⟨?_, ?_, ?_, ?_⟩ <;> first | rfl | trivial

/-- Witness for the amended C1 at a concrete left-edge miss. -/
theorem left_miss_decrements_and_resets_witness :
    (ballUpdate ⟨⟨256, 20480⟩, ⟨-512, 0⟩⟩ ⟨⟨2048, 2048⟩, 3⟩ ⟨⟨55296, 2048⟩, 3⟩).2.1.health =
      decHealth 3 :=
  (left_miss_decrements_and_resets ⟨⟨256, 20480⟩, ⟨-512, 0⟩⟩ ⟨⟨2048, 2048⟩, 3⟩
    ⟨⟨55296, 2048⟩, 3⟩ (by decide)).1

/-- Counterexample to claim C2 as stated: running the paddle updates before
the ball update (as the spec's data-flow sentence orders them) is observably
different from the source's order (ball update first).  Here the left paddle
moves up into the ball's path: with the claimed order the ball bounces, with
the source's order it does not. -/
theorem tick_order_cex :
    tick (.Playing ⟨⟨⟨2816, 6912⟩, ⟨-512, 0⟩⟩, ⟨⟨2048, 10240⟩, 3⟩, ⟨⟨55296, 2048⟩, 3⟩⟩)
        ⟨true, false, false, false, false⟩ ≠
      tickPaddlesFirst
        (.Playing ⟨⟨⟨2816, 6912⟩, ⟨-512, 0⟩⟩, ⟨⟨2048, 10240⟩, 3⟩, ⟨⟨55296, 2048⟩, 3⟩⟩)
        ⟨true, false, false, false, false⟩ := by decide

/-- Claim C2 (amended): within every `Playing` tick the order is: input, then
`Ball::update` (which reads the paddle rectangles as they were at the start of
the tick and never moves a paddle), then the two `Paddle::update` calls, and
only afterwards the health check for the `Playing → Over` transition. -/
theorem tick_order (gp : GamePlay) (i : Input) :
    tick (.Playing gp) i = healthGate (paddlePhase i (ballPhase gp)) ∧
    (ballPhase gp).paddleA.pos = gp.paddleA.pos ∧
    (ballPhase gp).paddleB.pos = gp.paddleB.pos := by
  refine ⟨rfl, ?_, ?_⟩
  · simp only [ballPhase]
    rw [(ballUpdate_paddles gp.ball gp.paddleA gp.paddleB).1]
    split <;> rfl
  · simp only [ballPhase]
    rw [(ballUpdate_paddles gp.ball gp.paddleA gp.paddleB).2]
    split <;> rfl

/-- Counterexample to claim C3 as stated: the per-miss decrement is not
saturating.  Calling `Ball::update` on a paddle whose health is already 0
during a left-edge miss wraps the `u16` to 65535. -/
theorem health_decrement_wraps_cex :
    ((256 : Int) + -512 ≤ 0) ∧
      (ballUpdate ⟨⟨256, 20480⟩, ⟨-512, 0⟩⟩ ⟨⟨2048, 2048⟩, 0⟩ ⟨⟨55296, 2048⟩, 3⟩).2.1.health =
        65535 := by decide

/-- One tick preserves the reachable-health invariant. -/
lemma healthInv_tick (g : Game) (i : Input) (h : healthInv g) : healthInv (tick g i) := by
  match g with
  | .Over =>
      simp only [tick]
      split
      · exact ⟨by decide, by decide, by decide, by decide⟩
      · trivial
  | .Playing gp =>
      obtain ⟨h1, h2, h3, h4⟩ := h
      simp only [tick, PaddleS.update_health]
      split
      · trivial
      · rename_i hc
        simp only [healthInv, PaddleS.update_health]
        rw [(ballUpdate_paddles gp.ball gp.paddleA gp.paddleB).1,
            (ballUpdate_paddles gp.ball gp.paddleA gp.paddleB).2] at hc ⊢
        by_cases hl : gp.ball.pos.x + gp.ball.vel.x ≤ 0 <;>
          by_cases hrr : gp.ball.pos.x + gp.ball.vel.x ≥ missRight <;>
            simp only [hl, hrr, if_true, if_false, ite_true, ite_false, decHealth] at hc ⊢ <;>
              omega

/-- Claim C3 (amended): the decrement is a plain wrapping `u16` decrement, not
a saturating one; it can never actually wrap in the running game, because
every state the loop reaches from `Game::new` satisfies `healthInv`: a
`Playing` tick always starts with both healths in `[1, 3]`, so each (at most
one per paddle per tick) decrement stays non-negative. -/
theorem reachable_health_bounds (is : List Input) :
    healthInv (List.foldl tick Game.new is) := by
  have H : ∀ (js : List Input) (g : Game), healthInv g → healthInv (List.foldl tick g js) := by
    intro js
    induction js with
    | nil => exact fun _ hg => hg
    | cons j js ih => exact fun g hg => ih _ (healthInv_tick g j hg)
  exact H is Game.new ⟨by decide, by decide, by decide, by decide⟩

/-- Counterexample to claim C5 as stated: with incoming velocity `(0, 0)` the
ball can touch the left paddle without a reset, and `velocity.x` afterwards is
`abs 0 = 0`, which is not positive. -/
theorem bounce_direction_cex :
    (touches ⟨⟨1952 + 0, 2952 + 0⟩, fpOfInt 8⟩
        (PaddleS.collisionRect ⟨⟨2048, 2048⟩, 3⟩) = true) ∧
      (0 < (1952 : Int) + 0) ∧ ((1952 : Int) + 0 < missRight) ∧
      ¬ (0 < (ballUpdate ⟨⟨1952, 2952⟩, ⟨0, 0⟩⟩ ⟨⟨2048, 2048⟩, 3⟩
            ⟨⟨55296, 2048⟩, 3⟩).1.vel.x) := by decide

/-- Claim C5 (amended): provided the incoming `velocity.x` is nonzero and no
reset occurs in the tick, touching the right paddle leaves `velocity.x`
negative, and touching the left paddle — when the collision circle does not
simultaneously touch the right paddle's rectangle, which cannot happen at the
paddles' in-game x positions — leaves `velocity.x` positive. -/
theorem bounce_direction (b : BallS) (pa pb : PaddleS) :
    ((touches ⟨⟨b.pos.x + b.vel.x, b.pos.y + b.vel.y⟩, fpOfInt 8⟩ pa.collisionRect = true) →
      (touches ⟨⟨b.pos.x + b.vel.x, b.pos.y + b.vel.y⟩, fpOfInt 8⟩ pb.collisionRect = false) →
      b.vel.x ≠ 0 → 0 < b.pos.x + b.vel.x → b.pos.x + b.vel.x < missRight →
      0 < (ballUpdate b pa pb).1.vel.x) ∧
    ((touches ⟨⟨b.pos.x + b.vel.x, b.pos.y + b.vel.y⟩, fpOfInt 8⟩ pb.collisionRect = true) →
      b.vel.x ≠ 0 → 0 < b.pos.x + b.vel.x → b.pos.x + b.vel.x < missRight →
      (ballUpdate b pa pb).1.vel.x < 0) := by
  constructor
  · intro hA hB hv hx1 hx2
    have hnl : ¬ (b.pos.x + b.vel.x ≤ 0) := by omega
    have hnr : ¬ (b.pos.x + b.vel.x ≥ missRight) := by omega
    simp only [ballUpdate, hA, hB, hnl, hnr, if_true, if_false, ite_true, ite_false,
      Bool.false_eq_true]
    split <;> exact fpAbs_pos _ hv
  · intro hB hv hx1 hx2
    have hnl : ¬ (b.pos.x + b.vel.x ≤ 0) := by omega
    have hnr : ¬ (b.pos.x + b.vel.x ≥ missRight) := by omega
    simp only [ballUpdate, hB, hnl, hnr, if_true, if_false, ite_true, ite_false]
    split <;> split <;>
      first
        | exact neg_lt_zero.mpr (fpAbs_pos _ hv)
        | (rw [fpAbs_fpAbs]; exact neg_lt_zero.mpr (fpAbs_pos _ hv))

/-- Witness for the amended C5: a concrete left-paddle bounce with incoming
velocity `(-2, 0)`. -/
theorem bounce_direction_witness :
    0 < (ballUpdate ⟨⟨1952, 2952⟩, ⟨-512, 0⟩⟩ ⟨⟨2048, 2048⟩, 3⟩ ⟨⟨55296, 2048⟩, 3⟩).1.vel.x :=
  (bounce_direction ⟨⟨1952, 2952⟩, ⟨-512, 0⟩⟩ ⟨⟨2048, 2048⟩, 3⟩ ⟨⟨55296, 2048⟩, 3⟩).1
    (by decide) (by decide) (by decide) (by decide) (by decide)

/-- Claim C6 (confirmed): a `Playing` tick ends in `Over` exactly when, after
the ball update (paddle movement never changes health), either paddle's health
is 0; it stays `Playing` exactly when both are nonzero. -/
theorem playing_to_over_iff (gp : GamePlay) (i : Input) :
    tick (.Playing gp) i = .Over ↔
      ((ballUpdate gp.ball gp.paddleA gp.paddleB).2.1.health = 0 ∨
        (ballUpdate gp.ball gp.paddleA gp.paddleB).2.2.health = 0) := by
  simp only [tick, PaddleS.update_health]
  split
  · rename_i hcond
    exact iff_of_true rfl hcond
  · rename_i hcond
    exact iff_of_false (fun hEq => Game.noConfusion hEq) hcond

/-- Claim C7 (confirmed): from `Over`, a tick yields a brand-new `Game::new`
session exactly when START is pressed — both paddles at health 3, ball at the
reset position and velocity — and stays `Over` otherwise. -/
theorem over_restart (i : Input) :
    tick Game.Over i = (if i.start = true then Game.new else Game.Over) ∧
      Game.new = Game.Playing
        { ball := ⟨⟨fpOfInt 50, fpOfInt 50⟩, ⟨fpOfInt 2, 128⟩⟩
          paddleA := ⟨⟨fpOfInt 8, fpOfInt 8⟩, 3⟩
          paddleB := ⟨⟨fpOfInt 216, fpOfInt 8⟩, 3⟩ } :=
  ⟨rfl, by decide⟩

/-- Counterexample to claim C8 as stated (its negation): no `Ball::update`
call — on any state, reachable or not — changes both paddles' healths, because
the two miss tests compare the same `next_pos.x` against `0` and `224`. -/
theorem no_double_miss_cex :
    ¬ ∃ (b : BallS) (pa pb : PaddleS),
        (ballUpdate b pa pb).2.1.health ≠ pa.health ∧
        (ballUpdate b pa pb).2.2.health ≠ pb.health := by
  rintro ⟨b, pa, pb, hA, hB⟩
  rw [(ballUpdate_paddles b pa pb).1] at hA
  rw [(ballUpdate_paddles b pa pb).2] at hB
  by_cases hl : b.pos.x + b.vel.x ≤ 0
  · by_cases hrr : b.pos.x + b.vel.x ≥ missRight
    · unfold missRight fpOfInt at hrr
      omega
    · rw [if_neg hrr] at hB
      exact hB rfl
  · rw [if_neg hl] at hA
    exact hA rfl

/-- Claim C8 (amended): in any single `Ball::update` at most one paddle's
health changes; a simultaneous double miss (and hence a simultaneous
double-zero from one tick) is impossible, since `next_pos.x ≤ 0` and
`next_pos.x ≥ 224` exclude each other. -/
theorem at_most_one_miss (b : BallS) (pa pb : PaddleS) :
    (ballUpdate b pa pb).2.1.health = pa.health ∨
      (ballUpdate b pa pb).2.2.health = pb.health := by
  rw [(ballUpdate_paddles b pa pb).1, (ballUpdate_paddles b pa pb).2]
  by_cases hl : b.pos.x + b.vel.x ≤ 0
  · have hnr : ¬ (b.pos.x + b.vel.x ≥ missRight) := by
      unfold missRight fpOfInt
      omega
    right
    rw [if_neg hnr]
  · left
    rw [if_neg hl]

end Pong
